import Mathlib

/-!
Verification of the ReAct agent core (ai_agent/planner.py, ai_agent/agent.py,
ai_agent/trajectory.py, ai_agent/tools/base.py) against its specification.

Shallow embedding conventions:
* Decoded JSON / Python values are `JVal` (JSON numbers are modelled as
  integers; no claim depends on float semantics).
* Python exceptions are `PyErr`; fallible code returns `Except PyErr _` or
  an `Option PyErr × state` pair when the mutated state after an exception
  matters.
* The external language-model client (`AIClient.chat`) and the stdlib
  `json.loads` are oracles packaged in `Env`: `Env.thought i` and
  `Env.response i` are the model texts returned by the two chat calls of
  iteration `i`, and `Env.loads` is the external JSON parser (its `.error`
  case carries the stringified `json.JSONDecodeError`).  Quantifying over
  all `Env` covers every execution trace of the real program.
* Wall-clock instants (`time.time()`, `datetime.now()`) are integers
  supplied by the `Env`; an ISO-format timestamp string is represented by
  its instant.
-/

namespace AIAgent

/-- A decoded JSON value, i.e. the Python value produced by `json.loads`.
Objects are association lists in insertion order with distinct keys
(guaranteed by `json.loads`). JSON numbers are modelled as integers. -/
inductive JVal where
  | jstr (s : String)
  | jnum (n : Int)
  | jbool (b : Bool)
  | jnull
  | jarr (xs : List JVal)
  | jobj (kvs : List (String × JVal))

/-- The Python exceptions the embedded code can raise. -/
inductive PyErr where
  | keyError (k : String)
  | typeError
  | runtimeError (msg : String)
deriving DecidableEq

/-- Python subscripting `v[k]` with a string key: a `dict` yields the entry or
raises `KeyError`; any non-dict value raises `TypeError`. -/
def pyGetItem (v : JVal) (k : String) : Except PyErr JVal :=
  match v with
  | JVal.jobj kvs =>
    match kvs.lookup k with
    | some x => Except.ok x
    | none => Except.error (PyErr.keyError k)
  | _ => Except.error PyErr.typeError

/-- Python `==` between a decoded JSON value and a `str` literal (used by the
`in` membership test and by `_is_task_complete`): only an equal string
compares equal. -/
def pyEqStr (v : JVal) (t : String) : Bool :=
  match v with
  | JVal.jstr s => s == t
  | _ => false

mutual

/-- Python `repr` of a decoded JSON value (escaping of special characters
inside strings is not modelled; no claim depends on it). -/
def pyRepr : JVal → String
  | JVal.jstr s => "\x27" ++ s ++ "\x27"
  | JVal.jnum n => toString n
  | JVal.jbool b => if b then "True" else "False"
  | JVal.jnull => "None"
  | JVal.jarr xs => "[" ++ String.intercalate ", " (pyReprList xs) ++ "]"
  | JVal.jobj kvs => "\x7b" ++ String.intercalate ", " (pyReprPairs kvs) ++ "\x7d"

/-- `repr` of the elements of a JSON array. -/
def pyReprList : List JVal → List String
  | [] => []
  | x :: xs => pyRepr x :: pyReprList xs

/-- `repr` of the entries of a JSON object. -/
def pyReprPairs : List (String × JVal) → List String
  | [] => []
  | (k, v) :: xs => ("\x27" ++ k ++ "\x27: " ++ pyRepr v) :: pyReprPairs xs

end

/-- Python `str` of a decoded JSON value (as interpolated by f-strings). -/
def pyStr : JVal → String
  | JVal.jstr s => s
  | v => pyRepr v

/-- The synthetic fallback decision built at planner.py lines 103-108. -/
def parseFallback (cause response : String) : JVal :=
  JVal.jobj
    [("action", JVal.jstr "final_answer"),
     ("action_input",
      JVal.jobj
        [("answer",
          JVal.jstr
            ("Error parsing action decision: " ++ cause ++
             ". Original response: " ++ response))])]

/-- Embeds the response-handling part of `Planner.decide_action`
(planner.py lines 81-108).  `loadsResult` is the outcome of the external
`json.loads(response)` (error case: the stringified `JSONDecodeError`);
`tools` is `tool_registry.get_available_tools()`.  The `except` clause
catches only `json.JSONDecodeError` and `ValueError`, so the `KeyError` or
`TypeError` raised by `action_decision["action"]` propagates. -/
def decide_action (loadsResult : Except String JVal) (response : String)
    (tools : List String) : Except PyErr JVal :=
  match loadsResult with
  | Except.error msg => Except.ok (parseFallback msg response)
  | Except.ok d =>
    match pyGetItem d "action" with
    | Except.error e => Except.error e
    | Except.ok a =>
      if (tools ++ ["final_answer"]).any (fun t => pyEqStr a t) then Except.ok d
      else Except.ok (parseFallback ("Invalid action: " ++ pyStr a) response)

/-- A registered capability: `exec` is the behaviour of
`tool.execute(**action_input)` applied to the `action_input` value — a
successful return value, or the stringified exception it raised (including
the `TypeError` of unpacking a non-mapping). -/
structure Tool where
  exec : JVal → Except String JVal

/-- `ToolRegistry.get_available_tools` (tools/base.py lines 74-79): the
registry is a dict in insertion order, so its keys are the first
components. -/
def get_available_tools (reg : List (String × Tool)) : List String :=
  reg.map Prod.fst

/-- Stringified exception raised by `ToolRegistry.get_tool(action)` when the
lookup fails: the `ValueError` of tools/base.py line 70, or the `TypeError`
of hashing an unhashable dict key. -/
def lookupErrorMsg (a : JVal) : String :=
  match a with
  | JVal.jarr _ => "unhashable type: \x27list\x27"
  | JVal.jobj _ => "unhashable type: \x27dict\x27"
  | _ => "Tool not found: " ++ pyStr a

/-- Registry lookup with a decoded JSON value as key: only a string key can
be present in the dict. -/
def regLookup (reg : List (String × Tool)) (a : JVal) : Option Tool :=
  match a with
  | JVal.jstr s => reg.lookup s
  | _ => none

/-- Embeds `ReActEngine._execute_action` (agent.py lines 182-202): the two
subscripts on the decision happen before the `try` block, so their
`KeyError`/`TypeError` propagates; everything inside the `try`
(`get_tool` and `tool.execute`) is caught by `except Exception` and folded
into an error string. -/
def execute_action (reg : List (String × Tool)) (decision : JVal) :
    Except PyErr String :=
  match pyGetItem decision "action" with
  | Except.error e => Except.error e
  | Except.ok a =>
    match pyGetItem decision "action_input" with
    | Except.error e => Except.error e
    | Except.ok inp =>
      match regLookup reg a with
      | none =>
        Except.ok ("Error executing action " ++ pyStr a ++ ": " ++ lookupErrorMsg a)
      | some t =>
        match t.exec inp with
        | Except.ok r => Except.ok (pyStr r)
        | Except.error msg =>
          Except.ok ("Error executing action " ++ pyStr a ++ ": " ++ msg)

/-- The external world of one run: the model client, `json.loads`, the tool
registry built by `_setup_tools`, and the sampled clocks.  `timeAt i` is the
`time.time()` sampled by the loop check of iteration `i`, `t0` the
`time.time()` at run start, `recordTime i` the `datetime.now()` of the
`record_step` of iteration `i`, `startT` and `completeTime` the
`datetime.now()` of `start` and `complete`. -/
structure Env where
  thought : Nat → String
  response : Nat → String
  loads : String → Except String JVal
  reg : List (String × Tool)
  t0 : ℤ
  timeAt : Nat → ℤ
  recordTime : Nat → ℤ
  startT : ℤ
  completeTime : ℤ

/-- The `ReActStep` dataclass (agent.py lines 15-23).  `action`,
`action_input` and `result` hold whatever decoded values the decision
carried (Python does not enforce the `str` annotations). -/
structure ReActStep where
  thought : String
  action : JVal
  action_input : JVal
  observation : String
  result : JVal

/-- Embeds `ReActEngine._execute_step` (agent.py lines 139-180) minus the
recording call (threaded by the loop): the two chat calls are the `Env`
oracles, the decision is parsed by `decide_action`, and the step is built
from it; every uncaught subscript error propagates. -/
def execute_step (env : Env) (i : Nat) : Except PyErr ReActStep :=
  let response := env.response i
  match decide_action (env.loads response) response (get_available_tools env.reg) with
  | Except.error e => Except.error e
  | Except.ok decision =>
    match pyGetItem decision "action" with
    | Except.error e => Except.error e
    | Except.ok a =>
      if pyEqStr a "final_answer" then
        match pyGetItem decision "action_input" with
        | Except.error e => Except.error e
        | Except.ok inp =>
          match pyGetItem inp "answer" with
          | Except.error e => Except.error e
          | Except.ok ans =>
            Except.ok
              { thought := env.thought i, action := a, action_input := inp,
                observation := "Task completed", result := ans }
      else
        match execute_action env.reg decision with
        | Except.error e => Except.error e
        | Except.ok obs =>
          match pyGetItem decision "action_input" with
          | Except.error e => Except.error e
          | Except.ok inp =>
            Except.ok
              { thought := env.thought i, action := a, action_input := inp,
                observation := obs, result := JVal.jstr obs }

/-- The `TrajectoryStep` dataclass (trajectory.py lines 11-21). -/
structure TrajectoryStep where
  timestamp : ℤ
  thought : String
  action : JVal
  action_input : JVal
  observation : String
  result : JVal
  step_number : Nat

/-- The `Trajectory` dataclass (trajectory.py lines 24-35). -/
structure Trajectory where
  task : String
  start_time : ℤ
  end_time : Option ℤ
  steps : List TrajectoryStep
  success : Bool
  final_result : Option JVal
  total_steps : Nat
  duration_seconds : Option ℤ

/-- The mutable fields of a `TrajectoryRecorder` instance
(trajectory.py lines 43-47). -/
structure TrajectoryRecorder where
  current_trajectory : Option Trajectory
  steps : List TrajectoryStep
  start_time : Option ℤ

/-- The freshly constructed recorder (trajectory.py `__init__`). -/
def TrajectoryRecorder.init : TrajectoryRecorder :=
  { current_trajectory := none, steps := [], start_time := none }

/-- `TrajectoryRecorder.start` (trajectory.py lines 49-67): unconditionally
overwrites all prior state. -/
def TrajectoryRecorder.start (_s : TrajectoryRecorder) (task : String) (now : ℤ) :
    TrajectoryRecorder :=
  { current_trajectory :=
      some { task := task, start_time := now, end_time := none, steps := [],
             success := false, final_result := none, total_steps := 0,
             duration_seconds := none },
    steps := [], start_time := some now }

/-- The `TrajectoryStep` built by `record_step` (trajectory.py lines 76-84):
the step data plus the recorder-assigned timestamp and 1-based number. -/
def mkTrajStep (s : TrajectoryRecorder) (step : ReActStep) (now : ℤ) :
    TrajectoryStep :=
  { timestamp := now, thought := step.thought, action := step.action,
    action_input := step.action_input, observation := step.observation,
    result := step.result, step_number := s.steps.length + 1 }

/-- `TrajectoryRecorder.record_step` (trajectory.py lines 69-89): raising
`RuntimeError` when no trajectory is live (a live `Trajectory` dataclass is
always truthy, so `not self.current_trajectory` is a `None` test), otherwise
appending a numbered step and mirroring it into the trajectory.  The first
component is the raised exception, if any; the second is the recorder state
after the call. -/
def TrajectoryRecorder.record_step (s : TrajectoryRecorder) (step : ReActStep)
    (now : ℤ) : Option PyErr × TrajectoryRecorder :=
  match s.current_trajectory with
  | none =>
    (some (PyErr.runtimeError "No active trajectory. Call start() first."), s)
  | some t =>
    let steps2 := s.steps ++ [mkTrajStep s step now]
    let t2 := { t with steps := steps2, total_steps := steps2.length }
    (none, { s with steps := steps2, current_trajectory := some t2 })

/-- `TrajectoryRecorder.complete` (trajectory.py lines 91-104): seals the
live trajectory; `duration` falls back to `0.0` when `start_time` is unset. -/
def TrajectoryRecorder.complete (s : TrajectoryRecorder) (final_result : JVal)
    (success : Bool) (now : ℤ) : Option PyErr × TrajectoryRecorder :=
  match s.current_trajectory with
  | none =>
    (some (PyErr.runtimeError "No active trajectory. Call start() first."), s)
  | some t =>
    let duration : ℤ :=
      match s.start_time with
      | some st => now - st
      | none => 0
    let t2 := { t with end_time := some now, success := success,
                       final_result := some final_result,
                       duration_seconds := some duration }
    (none, { s with current_trajectory := some t2 })

/-- `TrajectoryRecorder.reset` (trajectory.py lines 182-188), also the body
of `ReActEngine.reset` (agent.py lines 214-217). -/
def TrajectoryRecorder.reset (_s : TrajectoryRecorder) : TrajectoryRecorder :=
  { current_trajectory := none, steps := [], start_time := none }

/-- `TrajectoryRecorder.get_trajectory` (trajectory.py lines 110-113), also
the body of `ReActEngine.get_trajectory` (agent.py lines 209-212). -/
def TrajectoryRecorder.get_trajectory (s : TrajectoryRecorder) : Option Trajectory :=
  s.current_trajectory

/-- The engine configuration fields read by `run` (agent.py lines 51-56). -/
structure Config where
  max_iterations : Nat
  timeout_seconds : ℤ

/-- How one `ReActEngine.run` call ends: a returned answer, the
`TimeoutError` of agent.py line 120, the `RuntimeError` of line 137
(maximum iterations), or an uncaught Python exception propagating from step
execution or recording. -/
inductive RunOutcome where
  | answer (a : JVal)
  | timeout
  | maxIterations
  | pyError (e : PyErr)

/-- The `while iteration < max_iterations` loop of `ReActEngine.run`
(agent.py lines 113-137), with `fuel = max_iterations - iteration` so the
guard `iteration < max_iterations` is the pattern on `fuel`.  Each entered
iteration first checks the timeout, then executes and records a step, then
either completes on `final_answer` or folds the observation into the
progress and continues. -/
def runLoop (env : Env) (cfg : Config) :
    Nat → Nat → String → TrajectoryRecorder → RunOutcome × TrajectoryRecorder
  | 0, _, _, rec => (RunOutcome.maxIterations, rec)
  | fuel + 1, iteration, _progress, rec =>
    if env.timeAt iteration - env.t0 > cfg.timeout_seconds then
      (RunOutcome.timeout, rec)
    else
      match execute_step env iteration with
      | Except.error e => (RunOutcome.pyError e, rec)
      | Except.ok step =>
        match TrajectoryRecorder.record_step rec step (env.recordTime iteration) with
        | (some e, rec2) => (RunOutcome.pyError e, rec2)
        | (none, rec2) =>
          if pyEqStr step.action "final_answer" then
            match TrajectoryRecorder.complete rec2 step.result true env.completeTime with
            | (some e, rec3) => (RunOutcome.pyError e, rec3)
            | (none, rec3) => (RunOutcome.answer step.result, rec3)
          else
            runLoop env cfg fuel (iteration + 1) step.observation rec2

/-- `ReActEngine.run` (agent.py lines 102-137): starts the recorder over the
engine's current recorder state and enters the loop at iteration 0 with
empty progress. -/
def run (env : Env) (cfg : Config) (task : String) (rec : TrajectoryRecorder) :
    RunOutcome × TrajectoryRecorder :=
  runLoop env cfg cfg.max_iterations 0 ""
    (TrajectoryRecorder.start rec task env.startT)

/-- The recorder invariant behind claims C3 and C7: the live trajectory
mirrors the recorder's step list, `total_steps` mirrors its length, and step
numbers are the 1-based list positions. -/
def RecInv (s : TrajectoryRecorder) : Prop :=
  (∀ t, s.current_trajectory = some t →
      t.steps = s.steps ∧ t.total_steps = s.steps.length) ∧
  ∀ i : Fin s.steps.length, (s.steps.get i).step_number = i.1 + 1

/-! ## Concrete fixtures used to instantiate the theorems -/

/-- A capability whose `execute` returns `"4"`. -/
def toolOk : Tool := { exec := fun _ => Except.ok (JVal.jstr "4") }

/-- A capability whose `execute` always raises an exception `"boom"`. -/
def toolBoom : Tool := { exec := fun _ => Except.error "boom" }

/-- A two-tool registry. -/
def regW : List (String × Tool) := [("calculator", toolOk), ("file", toolBoom)]

/-- A decision that invokes the `calculator` capability. -/
def dCalc : JVal :=
  JVal.jobj [("action", JVal.jstr "calculator"), ("action_input", JVal.jobj [])]

/-- A decision that invokes the failing `file` capability. -/
def dFile : JVal :=
  JVal.jobj [("action", JVal.jstr "file"), ("action_input", JVal.jobj [])]

/-- A well-formed `final_answer` decision answering `"42"`. -/
def dFinal : JVal :=
  JVal.jobj [("action", JVal.jstr "final_answer"),
             ("action_input", JVal.jobj [("answer", JVal.jstr "42")])]

/-- A `final_answer` decision whose `action_input` lacks the `answer` key. -/
def dBadFinal : JVal :=
  JVal.jobj [("action", JVal.jstr "final_answer"), ("action_input", JVal.jobj [])]

/-- An environment whose model always decides `dFinal`; all clocks read 0. -/
def envFinal : Env :=
  { thought := fun _ => "think", response := fun _ => "resp",
    loads := fun _ => Except.ok dFinal, reg := regW, t0 := 0,
    timeAt := fun _ => 0, recordTime := fun _ => 0, startT := 0,
    completeTime := 0 }

/-- An environment whose model always decides `dCalc` (never final). -/
def envTool : Env :=
  { thought := fun _ => "think", response := fun _ => "resp",
    loads := fun _ => Except.ok dCalc, reg := regW, t0 := 0,
    timeAt := fun _ => 0, recordTime := fun _ => 0, startT := 0,
    completeTime := 0 }

/-- An environment whose model always decides `dBadFinal`. -/
def envBadFinal : Env :=
  { thought := fun _ => "think", response := fun _ => "resp",
    loads := fun _ => Except.ok dBadFinal, reg := regW, t0 := 0,
    timeAt := fun _ => 0, recordTime := fun _ => 0, startT := 0,
    completeTime := 0 }

/-- An environment whose loop-boundary clock reads far past the timeout. -/
def envLate : Env :=
  { thought := fun _ => "think", response := fun _ => "resp",
    loads := fun _ => Except.ok dFinal, reg := regW, t0 := 0,
    timeAt := fun _ => 1000, recordTime := fun _ => 1000, startT := 0,
    completeTime := 1000 }

/-- Configuration with two iterations and a 100 second timeout. -/
def cfg2 : Config := { max_iterations := 2, timeout_seconds := 100 }

/-- The step produced by every iteration under `envTool`. -/
def stepCalc : ReActStep :=
  { thought := "think", action := JVal.jstr "calculator",
    action_input := JVal.jobj [], observation := "4", result := JVal.jstr "4" }

/-- A recorder that has just started a trajectory for `"task"` at instant 0. -/
def startedW : TrajectoryRecorder :=
  TrajectoryRecorder.start TrajectoryRecorder.init "task" 0

/-- The live trajectory inside `startedW`. -/
def trajW : Trajectory :=
  { task := "task", start_time := 0, end_time := none, steps := [],
    success := false, final_result := none, total_steps := 0,
    duration_seconds := none }

/-! ## General lemmas about the embedded operations -/

lemma pyEqStr_eq_true {v : JVal} {t : String} (h : pyEqStr v t = true) :
    v = JVal.jstr t := by
  cases v <;> simp [pyEqStr] at h
  subst h
  rfl

lemma fallback_answer_ne_empty (cause response : String) :
    ("Error parsing action decision: " ++ cause ++ ". Original response: " ++
      response) ≠ "" := by
  intro h
  have h2 := congrArg String.length h
  rw [String.length_append, String.length_append, String.length_append] at h2
  have h3 : ("Error parsing action decision: ").length = 31 := rfl
  have h4 : ("" : String).length = 0 := rfl
  omega

/-- Any decision returned (rather than raised) by the parser carries an
`action` value that is a string naming a registered tool or the
`final_answer` sentinel. -/
lemma decide_action_ok_action {ld : Except String JVal} {resp : String}
    {tools : List String} {d a : JVal}
    (h : decide_action ld resp tools = Except.ok d)
    (ha : pyGetItem d "action" = Except.ok a) :
    ∃ n, a = JVal.jstr n ∧ (n ∈ tools ∨ n = "final_answer") := by
  cases ld with
  | error msg =>
    simp [decide_action] at h
    subst h
    simp [parseFallback, pyGetItem, List.lookup] at ha
    exact ⟨"final_answer", ha.symm, Or.inr rfl⟩
  | ok d0 =>
    simp only [decide_action] at h
    cases hga : pyGetItem d0 "action" with
    | error e => simp only [hga] at h; exact absurd h (by simp)
    | ok a0 =>
      simp only [hga] at h
      by_cases hmem : ((tools ++ ["final_answer"]).any fun t => pyEqStr a0 t) = true
      · rw [if_pos hmem] at h
        injection h with h2
        subst h2
        rw [hga] at ha
        injection ha with h3
        subst h3
        obtain ⟨t, hmem2, hteq⟩ := List.any_eq_true.mp hmem
        have := pyEqStr_eq_true hteq
        subst this
        rcases List.mem_append.mp hmem2 with h1 | h1
        · exact ⟨t, rfl, Or.inl h1⟩
        · simp at h1
          exact ⟨t, rfl, Or.inr h1⟩
      · rw [if_neg hmem] at h
        injection h with h2
        subst h2
        simp [parseFallback, pyGetItem, List.lookup] at ha
        exact ⟨"final_answer", ha.symm, Or.inr rfl⟩

/-- Any step produced (rather than raised) by step execution carries an
action that is a registered tool name or the `final_answer` sentinel. -/
lemma execute_step_action_valid {env : Env} {i : Nat} {step : ReActStep}
    (h : execute_step env i = Except.ok step) :
    ∃ n, step.action = JVal.jstr n ∧
      (n ∈ get_available_tools env.reg ∨ n = "final_answer") := by
  simp only [execute_step] at h
  cases hd : decide_action (env.loads (env.response i)) (env.response i)
      (get_available_tools env.reg) with
  | error e => simp only [hd] at h; exact absurd h (by simp)
  | ok decision =>
    simp only [hd] at h
    cases hga : pyGetItem decision "action" with
    | error e => rw [hga] at h; exact absurd h (by simp)
    | ok a =>
      simp only [hga] at h
      have hvalid := decide_action_ok_action hd hga
      by_cases hfa : pyEqStr a "final_answer" = true
      · rw [if_pos hfa] at h
        cases hin : pyGetItem decision "action_input" with
        | error e => simp only [hin] at h; exact absurd h (by simp)
        | ok inp =>
          simp only [hin] at h
          cases hans : pyGetItem inp "answer" with
          | error e => simp only [hans] at h; exact absurd h (by simp)
          | ok ans =>
            simp only [hans] at h
            injection h with h2
            subst h2
            exact hvalid
      · rw [if_neg hfa] at h
        cases hea : execute_action env.reg decision with
        | error e => simp only [hea] at h; exact absurd h (by simp)
        | ok obs =>
          simp only [hea] at h
          cases hin : pyGetItem decision "action_input" with
          | error e => simp only [hin] at h; exact absurd h (by simp)
          | ok inp =>
            simp only [hin] at h
            injection h with h2
            subst h2
            exact hvalid

/-! ## Recorder invariants and loop preservation -/

lemma steps_ok_append {l : List TrajectoryStep} {x : TrajectoryStep}
    (h : ∀ i : Fin l.length, (l.get i).step_number = i.1 + 1)
    (hx : x.step_number = l.length + 1) :
    ∀ i : Fin (l ++ [x]).length, ((l ++ [x]).get i).step_number = i.1 + 1 := by
  rintro ⟨i, hi⟩
  rcases Nat.lt_or_ge i l.length with hlt | hge
  · have heq : (l ++ [x]).get ⟨i, hi⟩ = l.get ⟨i, hlt⟩ := by
      simp [List.get_eq_getElem, List.getElem_append_left hlt]
    rw [heq]
    exact h ⟨i, hlt⟩
  · have hi1 : i < l.length + 1 := by simpa using hi
    have hi2 : i = l.length := by omega
    subst hi2
    have heq : (l ++ [x]).get ⟨l.length, hi⟩ = x := by
      simp [List.get_eq_getElem]
    rw [heq]
    exact hx

lemma RecInv_start (s : TrajectoryRecorder) (task : String) (now : ℤ) :
    RecInv (TrajectoryRecorder.start s task now) := by
  constructor
  · intro t ht
    simp [TrajectoryRecorder.start] at ht
    subst ht
    exact ⟨rfl, rfl⟩
  · rintro ⟨i, hi⟩
    simp [TrajectoryRecorder.start] at hi

lemma RecInv_record {s : TrajectoryRecorder} (step : ReActStep) (now : ℤ)
    (h : RecInv s) : RecInv (TrajectoryRecorder.record_step s step now).2 := by
  cases hc : s.current_trajectory with
  | none => simpa [TrajectoryRecorder.record_step, hc] using h
  | some t =>
    simp only [TrajectoryRecorder.record_step, hc]
    constructor
    · intro t2 ht2
      simp at ht2
      subst ht2
      exact ⟨rfl, by simp⟩
    · exact steps_ok_append h.2 rfl

lemma RecInv_complete {s : TrajectoryRecorder} (r : JVal) (b : Bool) (now : ℤ)
    (h : RecInv s) : RecInv (TrajectoryRecorder.complete s r b now).2 := by
  cases hc : s.current_trajectory with
  | none => simpa [TrajectoryRecorder.complete, hc] using h
  | some t =>
    have ht := h.1 t hc
    simp only [TrajectoryRecorder.complete, hc]
    refine ⟨?_, h.2⟩
    intro t2 ht2
    simp at ht2
    subst ht2
    exact ⟨ht.1, by simp [ht.2, ht.1]⟩

/-- Any property of the recorder state preserved by `record_step` (on steps
produced by `execute_step`) and by `complete` is preserved by the whole
loop. -/
lemma runLoop_preserves (env : Env) (cfg : Config)
    (P : TrajectoryRecorder → Prop)
    (hrec : ∀ s step now, P s → (∃ i, execute_step env i = Except.ok step) →
        P (TrajectoryRecorder.record_step s step now).2)
    (hcomp : ∀ s r b now, P s → P (TrajectoryRecorder.complete s r b now).2) :
    ∀ fuel it p rec, P rec → P (runLoop env cfg fuel it p rec).2 := by
  intro fuel
  induction fuel with
  | zero => intro it p rec h; simpa [runLoop] using h
  | succ fuel ih =>
    intro it p rec h
    simp only [runLoop]
    split
    · exact h
    · split
      · exact h
      · rename_i step hstep
        have hrec2 : P (TrajectoryRecorder.record_step rec step
            (env.recordTime it)).2 := hrec rec step _ h ⟨it, hstep⟩
        split
        · rename_i e rec2 h2
          rw [h2] at hrec2
          exact hrec2
        · rename_i rec2 h2
          rw [h2] at hrec2
          split
          · have hcomp2 : P (TrajectoryRecorder.complete rec2 step.result true
                env.completeTime).2 := hcomp rec2 step.result true _ hrec2
            split
            · rename_i e rec3 h3
              rw [h3] at hcomp2
              exact hcomp2
            · rename_i rec3 h3
              rw [h3] at hcomp2
              exact hcomp2
          · exact ih (it + 1) step.observation rec2 hrec2

/-- `record_step` grows the step list by at most one entry. -/
lemma record_step_length (s : TrajectoryRecorder) (step : ReActStep) (now : ℤ) :
    (TrajectoryRecorder.record_step s step now).2.steps.length ≤
      s.steps.length + 1 := by
  cases hc : s.current_trajectory with
  | none => simp [TrajectoryRecorder.record_step, hc]
  | some t => simp [TrajectoryRecorder.record_step, hc]

/-- `complete` never touches the recorder step list. -/
lemma complete_steps_eq {s : TrajectoryRecorder} {r : JVal} {b : Bool}
    {now : ℤ} {oe : Option PyErr} {s2 : TrajectoryRecorder}
    (h : TrajectoryRecorder.complete s r b now = (oe, s2)) :
    s2.steps = s.steps := by
  cases hc : s.current_trajectory with
  | none =>
    simp [TrajectoryRecorder.complete, hc] at h
    rw [← h.2]
  | some t =>
    simp [TrajectoryRecorder.complete, hc] at h
    rw [← h.2]

/-- The loop records at most `fuel` further steps. -/
lemma runLoop_steps_le (env : Env) (cfg : Config) :
    ∀ fuel it p rec, (runLoop env cfg fuel it p rec).2.steps.length ≤
      rec.steps.length + fuel := by
  intro fuel
  induction fuel with
  | zero => intro it p rec; simp [runLoop]
  | succ fuel ih =>
    intro it p rec
    simp only [runLoop]
    split
    · show rec.steps.length ≤ rec.steps.length + (fuel + 1)
      omega
    · split
      · show rec.steps.length ≤ rec.steps.length + (fuel + 1)
        omega
      · rename_i step hstep
        split
        · rename_i e rec2 h2
          have hlen := record_step_length rec step (env.recordTime it)
          rw [h2] at hlen
          have hlen2 : rec2.steps.length ≤ rec.steps.length + 1 := hlen
          show rec2.steps.length ≤ rec.steps.length + (fuel + 1)
          omega
        · rename_i rec2 h2
          have hlen := record_step_length rec step (env.recordTime it)
          rw [h2] at hlen
          have hlen2 : rec2.steps.length ≤ rec.steps.length + 1 := hlen
          split
          · split
            · rename_i e rec3 h3
              have hlen3 : rec3.steps = rec2.steps :=
                complete_steps_eq h3
              show rec3.steps.length ≤ rec.steps.length + (fuel + 1)
              rw [hlen3]
              omega
            · rename_i rec3 h3
              have hlen3 : rec3.steps = rec2.steps :=
                complete_steps_eq h3
              show rec3.steps.length ≤ rec.steps.length + (fuel + 1)
              rw [hlen3]
              omega
          · have := ih (it + 1) step.observation rec2
            omega

/-- Pointwise description of a successful `record_step` on a live
trajectory. -/
lemma record_step_some_spec {s : TrajectoryRecorder} {t : Trajectory}
    (step : ReActStep) (now : ℤ) (h : s.current_trajectory = some t) :
    (TrajectoryRecorder.record_step s step now).1 = none ∧
    (TrajectoryRecorder.record_step s step now).2.steps.length =
      s.steps.length + 1 ∧
    (TrajectoryRecorder.record_step s step now).2.steps =
      s.steps ++ [mkTrajStep s step now] ∧
    ∃ t2, (TrajectoryRecorder.record_step s step now).2.current_trajectory =
        some t2 ∧ t2.end_time = t.end_time ∧ t2.success = t.success := by
  simp [TrajectoryRecorder.record_step, h]

/-- Transport a pointwise step-list property along a list equality. -/
lemma forall_fin_steps_congr (P : TrajectoryStep → Prop)
    {l m : List TrajectoryStep} (h : l = m)
    (hl : ∀ i : Fin l.length, P (l.get i)) :
    ∀ i : Fin m.length, P (m.get i) := by
  subst h
  exact hl

/-- A pointwise property of all steps survives appending a step that has
it. -/
lemma forall_fin_append (P : TrajectoryStep → Prop) {l : List TrajectoryStep}
    {x : TrajectoryStep} (hl : ∀ i : Fin l.length, P (l.get i)) (hx : P x) :
    ∀ i : Fin (l ++ [x]).length, P ((l ++ [x]).get i) := by
  rintro ⟨i, hi⟩
  rcases Nat.lt_or_ge i l.length with hlt | hge
  · have heq : (l ++ [x]).get ⟨i, hi⟩ = l.get ⟨i, hlt⟩ := by
      simp [List.get_eq_getElem, List.getElem_append_left hlt]
    rw [heq]
    exact hl ⟨i, hlt⟩
  · have hi1 : i < l.length + 1 := by simpa using hi
    have hi2 : i = l.length := by omega
    subst hi2
    have heq : (l ++ [x]).get ⟨l.length, hi⟩ = x := by
      simp [List.get_eq_getElem]
    rw [heq]
    exact hx

/-- Pointwise description of a successful `complete` on a live trajectory. -/
lemma complete_some_spec {s : TrajectoryRecorder} {t : Trajectory}
    (r : JVal) (b : Bool) (now : ℤ) (h : s.current_trajectory = some t) :
    (TrajectoryRecorder.complete s r b now).1 = none ∧
    (TrajectoryRecorder.complete s r b now).2.steps = s.steps ∧
    ∃ t2, (TrajectoryRecorder.complete s r b now).2.current_trajectory =
        some t2 ∧ t2.success = b ∧ t2.final_result = some r ∧
        t2.end_time = some now ∧ t2.steps = t.steps := by
  simp [TrajectoryRecorder.complete, h]

/-- An entered iteration past the deadline stops the loop at once. -/
lemma runLoop_timeout (env : Env) (cfg : Config) (fuel it : Nat) (p : String)
    (rec : TrajectoryRecorder)
    (htime : env.timeAt it - env.t0 > cfg.timeout_seconds) :
    runLoop env cfg (fuel + 1) it p rec = (RunOutcome.timeout, rec) := by
  simp only [runLoop]
  rw [if_pos htime]

/-- An uncaught exception in step execution aborts the loop with the
recorder unchanged. -/
lemma runLoop_step_error (env : Env) (cfg : Config) (fuel it : Nat)
    (p : String) (rec : TrajectoryRecorder) {e : PyErr}
    (htime : ¬ env.timeAt it - env.t0 > cfg.timeout_seconds)
    (herr : execute_step env it = Except.error e) :
    runLoop env cfg (fuel + 1) it p rec = (RunOutcome.pyError e, rec) := by
  simp only [runLoop]
  rw [if_neg htime]
  split
  · rename_i e2 h2
    rw [herr] at h2
    injection h2 with h3
    rw [h3]
  · rename_i step2 h2
    rw [herr] at h2
    cases h2

/-- A recorded non-final step makes the loop continue at the next
iteration with the observation as the new progress. -/
lemma runLoop_step_continue {env : Env} {cfg : Config} {fuel it : Nat}
    {p : String} {rec : TrajectoryRecorder} {step : ReActStep}
    (htime : ¬ env.timeAt it - env.t0 > cfg.timeout_seconds)
    (hok : execute_step env it = Except.ok step)
    (hnf : pyEqStr step.action "final_answer" = false)
    (hrec : (TrajectoryRecorder.record_step rec step (env.recordTime it)).1 =
      none) :
    runLoop env cfg (fuel + 1) it p rec =
      runLoop env cfg fuel (it + 1) step.observation
        (TrajectoryRecorder.record_step rec step (env.recordTime it)).2 := by
  simp only [runLoop]
  rw [if_neg htime]
  split
  · rename_i e2 h2
    rw [hok] at h2
    cases h2
  · rename_i step2 h2
    have hss : step = step2 := by
      rw [hok] at h2
      injection h2
    subst hss
    split
    · rename_i e2 rec2 h3
      rw [h3] at hrec
      cases hrec
    · rename_i rec2 h3
      rw [hnf]
      simp only [Bool.false_eq_true, if_false]
      rw [h3]

/-- A recorded `final_answer` step completes the trajectory and returns the
answer. -/
lemma runLoop_step_final (env : Env) (cfg : Config) (fuel it : Nat)
    (p : String) (rec : TrajectoryRecorder) {step : ReActStep}
    (htime : ¬ env.timeAt it - env.t0 > cfg.timeout_seconds)
    (hok : execute_step env it = Except.ok step)
    (hf : pyEqStr step.action "final_answer" = true)
    (hrec : (TrajectoryRecorder.record_step rec step (env.recordTime it)).1 =
      none)
    (hcomp : (TrajectoryRecorder.complete
        (TrajectoryRecorder.record_step rec step (env.recordTime it)).2
        step.result true env.completeTime).1 = none) :
    runLoop env cfg (fuel + 1) it p rec =
      (RunOutcome.answer step.result,
       (TrajectoryRecorder.complete
         (TrajectoryRecorder.record_step rec step (env.recordTime it)).2
         step.result true env.completeTime).2) := by
  simp only [runLoop]
  rw [if_neg htime]
  split
  · rename_i e2 h2
    rw [hok] at h2
    cases h2
  · rename_i step2 h2
    have hss : step = step2 := by
      rw [hok] at h2
      injection h2
    subst hss
    split
    · rename_i e2 rec2 h3
      rw [h3] at hrec
      cases hrec
    · rename_i rec2 h3
      rw [hf]
      simp only [if_true]
      split
      · rename_i e3 rec3 h4
        rw [h3] at hcomp
        have hcomp2 : (TrajectoryRecorder.complete rec2 step.result true
            env.completeTime).1 = none := hcomp
        rw [h4] at hcomp2
        cases hcomp2
      · rename_i rec3 h4
        rw [h3]
        have h4b : (TrajectoryRecorder.complete rec2 step.result true
            env.completeTime).2 = rec3 := by
          rw [h4]
        rw [h4b]

/-- When every entered iteration stays within the deadline and executes a
recorded non-final step, the loop exhausts its fuel: it ends in the
max-iterations outcome with exactly `fuel` more recorded steps and the
trajectory still not completed. -/
lemma runLoop_exhaust (env : Env) (cfg : Config) :
    ∀ fuel it p rec,
    rec.current_trajectory.isSome = true →
    (∀ j, j < fuel → ¬ env.timeAt (it + j) - env.t0 > cfg.timeout_seconds) →
    (∀ j, j < fuel → ∃ step, execute_step env (it + j) = Except.ok step ∧
        pyEqStr step.action "final_answer" = false) →
    (runLoop env cfg fuel it p rec).1 = RunOutcome.maxIterations ∧
    (runLoop env cfg fuel it p rec).2.steps.length = rec.steps.length + fuel ∧
    ∀ t, rec.current_trajectory = some t →
      ∃ t2, (runLoop env cfg fuel it p rec).2.current_trajectory = some t2 ∧
        t2.end_time = t.end_time ∧ t2.success = t.success := by
  intro fuel
  induction fuel with
  | zero =>
    intro it p rec hsome htime hstep
    refine ⟨rfl, by simp [runLoop], ?_⟩
    intro t ht
    exact ⟨t, ht, rfl, rfl⟩
  | succ fuel ih =>
    intro it p rec hsome htime hstep
    obtain ⟨t, ht⟩ := Option.isSome_iff_exists.mp hsome
    obtain ⟨step, hok, hnf⟩ := hstep 0 (Nat.succ_pos fuel)
    rw [Nat.add_zero] at hok
    have htime0 := htime 0 (Nat.succ_pos fuel)
    rw [Nat.add_zero] at htime0
    have hspec := record_step_some_spec step (env.recordTime it) ht
    obtain ⟨t2, ht2, he2, hs2⟩ := hspec.2.2.2
    rw [runLoop_step_continue htime0 hok hnf hspec.1]
    have hih := ih (it + 1) step.observation
      (TrajectoryRecorder.record_step rec step (env.recordTime it)).2
      (by rw [ht2]; rfl)
      (fun j hj => by
        have h5 := htime (j + 1) (by omega)
        rwa [show it + (j + 1) = it + 1 + j by omega] at h5)
      (fun j hj => by
        have h5 := hstep (j + 1) (by omega)
        rwa [show it + (j + 1) = it + 1 + j by omega] at h5)
    refine ⟨hih.1, ?_, ?_⟩
    · rw [hih.2.1, hspec.2.1]
      omega
    · intro t0 ht0
      have htt : t = t0 := by
        have h6 := ht.symm.trans ht0
        injection h6
      subst htt
      obtain ⟨t3, ht3, he3, hs3⟩ := hih.2.2 t2 ht2
      exact ⟨t3, ht3, he3.trans he2, hs3.trans hs2⟩

/-! ## Claim theorems -/

/-- C1 (amended): the action-decision parser returns the well-formed
fallback decision (a `final_answer` whose `answer` is the non-empty string
built from the cause and the original response text) exactly when
`json.loads` fails or when the parsed object carries an `action` value that
is neither a registered tool name nor `final_answer`; a decision whose
`action` is valid is returned unchanged (even when `action_input` is
missing); but when the parsed JSON is not an object, or is an object with
no `action` key, the `action` subscript raises (`TypeError` / `KeyError`)
past the parser's boundary. -/
theorem C1_decide_action_fallback (ld : Except String JVal)
    (response : String) (tools : List String) :
    (∀ msg, ld = Except.error msg →
      decide_action ld response tools = Except.ok (parseFallback msg response)) ∧
    (∀ d e, ld = Except.ok d → pyGetItem d "action" = Except.error e →
      decide_action ld response tools = Except.error e) ∧
    (∀ d a, ld = Except.ok d → pyGetItem d "action" = Except.ok a →
      (((tools ++ ["final_answer"]).any fun t => pyEqStr a t) = true →
        decide_action ld response tools = Except.ok d) ∧
      (((tools ++ ["final_answer"]).any fun t => pyEqStr a t) = false →
        decide_action ld response tools =
          Except.ok (parseFallback ("Invalid action: " ++ pyStr a) response))) ∧
    (∀ cause, parseFallback cause response =
      JVal.jobj
        [("action", JVal.jstr "final_answer"),
         ("action_input", JVal.jobj
           [("answer", JVal.jstr ("Error parsing action decision: " ++ cause ++
              ". Original response: " ++ response))])] ∧
      ("Error parsing action decision: " ++ cause ++ ". Original response: " ++
        response) ≠ "") := by
  refine ⟨?_, ?_, ?_, ?_⟩
  · intro msg hmsg
    subst hmsg
    rfl
  · intro d e hd he
    subst hd
    simp only [decide_action, he]
  · intro d a hd ha
    subst hd
    constructor
    · intro hmem
      simp only [decide_action, ha]
      rw [if_pos hmem]
    · intro hmem
      simp only [decide_action, ha]
      rw [if_neg (by rw [hmem]; exact Bool.false_ne_true)]
  · intro cause
    exact ⟨rfl, fallback_answer_ne_empty cause response⟩

/-- C1 witness: a decision naming an unregistered action is replaced by the
fallback answer. -/
theorem C1_decide_action_fallback_witness :
    decide_action (Except.ok (JVal.jobj [("action", JVal.jstr "frobnicate")]))
        "raw" ["calculator"] =
      Except.ok (parseFallback "Invalid action: frobnicate" "raw") :=
  ((C1_decide_action_fallback
      (Except.ok (JVal.jobj [("action", JVal.jstr "frobnicate")])) "raw"
      ["calculator"]).2.2.1 (JVal.jobj [("action", JVal.jstr "frobnicate")])
      (JVal.jstr "frobnicate") rfl rfl).2 rfl

/-- C1 counterexample: on the valid-JSON response `\x7b\x7d` (an object
with no `action` key) the parser raises an uncaught `KeyError` instead of
returning the claimed fallback decision. -/
theorem C1_decide_action_counterexample :
    decide_action (Except.ok (JVal.jobj [])) "\x7b\x7d" ["calculator"] =
      Except.error (PyErr.keyError "action") := rfl

/-- C6: when at the start of an entered loop iteration the elapsed wall
clock strictly exceeds `timeout_seconds`, the run fails with the distinct
timeout error before executing that iteration's step: the recorder is
exactly as it was (no step recorded, `complete` never called, so a
previously incomplete trajectory stays incomplete). -/
theorem C6_timeout_before_step (env : Env) (cfg : Config) (fuel it : Nat)
    (p : String) (rec : TrajectoryRecorder)
    (htime : env.timeAt it - env.t0 > cfg.timeout_seconds) :
    runLoop env cfg (fuel + 1) it p rec = (RunOutcome.timeout, rec) ∧
    (runLoop env cfg (fuel + 1) it p rec).2.steps = rec.steps ∧
    (∀ t, rec.current_trajectory = some t → t.end_time = none →
      ∀ t2, (runLoop env cfg (fuel + 1) it p rec).2.current_trajectory =
          some t2 → t2.end_time = none) ∧
    RunOutcome.timeout ≠ RunOutcome.maxIterations := by
  have h := runLoop_timeout env cfg fuel it p rec htime
  refine ⟨h, by rw [h], ?_, by intro hc; cases hc⟩
  intro t ht hend t2 ht2
  rw [h] at ht2
  have : t = t2 := by
    have h2 := ht.symm.trans ht2
    injection h2
  rw [← this]
  exact hend

/-- C6 witness. -/
theorem C6_timeout_before_step_witness :
    runLoop envLate cfg2 1 0 "" startedW = (RunOutcome.timeout, startedW) :=
  (C6_timeout_before_step envLate cfg2 0 0 "" startedW (by decide)).1

/-- C9: when the parser hands back a `final_answer` decision whose
`action_input` mapping lacks the key `answer`, the subscript in the step
executor raises `KeyError` which propagates out of the loop: no step is
recorded for that iteration and the trajectory stays incomplete. -/
theorem C9_missing_answer_key (env : Env) (cfg : Config) (fuel it : Nat)
    (p : String) (rec : TrajectoryRecorder) (d : JVal)
    (kvs : List (String × JVal))
    (htime : ¬ env.timeAt it - env.t0 > cfg.timeout_seconds)
    (hd : decide_action (env.loads (env.response it)) (env.response it)
        (get_available_tools env.reg) = Except.ok d)
    (ha : pyGetItem d "action" = Except.ok (JVal.jstr "final_answer"))
    (hinp : pyGetItem d "action_input" = Except.ok (JVal.jobj kvs))
    (hmiss : kvs.lookup "answer" = none) :
    execute_step env it = Except.error (PyErr.keyError "answer") ∧
    runLoop env cfg (fuel + 1) it p rec =
      (RunOutcome.pyError (PyErr.keyError "answer"), rec) ∧
    (runLoop env cfg (fuel + 1) it p rec).2.steps = rec.steps ∧
    (∀ t, rec.current_trajectory = some t →
      t.end_time = none ∧ t.success = false →
      ∀ t2, (runLoop env cfg (fuel + 1) it p rec).2.current_trajectory =
          some t2 → t2.end_time = none ∧ t2.success = false) := by
  have hstep : execute_step env it = Except.error (PyErr.keyError "answer") := by
    simp only [execute_step, hd, ha, hinp]
    have hfa : pyEqStr (JVal.jstr "final_answer") "final_answer" = true := rfl
    rw [if_pos hfa]
    simp [pyGetItem, hmiss]
  have h := runLoop_step_error env cfg fuel it p rec htime hstep
  refine ⟨hstep, h, by rw [h], ?_⟩
  intro t ht hinc t2 ht2
  rw [h] at ht2
  have : t = t2 := by
    have h2 := ht.symm.trans ht2
    injection h2
  rw [← this]
  exact hinc

/-- C9 witness: under `envBadFinal` the loop aborts with the `KeyError`
and the started recorder is untouched. -/
theorem C9_missing_answer_key_witness :
    runLoop envBadFinal cfg2 1 0 "" startedW =
      (RunOutcome.pyError (PyErr.keyError "answer"), startedW) :=
  (C9_missing_answer_key envBadFinal cfg2 0 0 "" startedW dBadFinal
    [] (by decide) rfl rfl rfl rfl).2.1

/-- C10: `record_step` and `complete` on a recorder with no live trajectory
(never started, or reset since) raise `RuntimeError` and leave the recorder
state unchanged: the current trajectory is still `none` and a previously
empty step list is still empty. -/
theorem C10_record_without_start (s : TrajectoryRecorder) (step : ReActStep)
    (now : ℤ) (r : JVal) (b : Bool) (now2 : ℤ)
    (h : s.current_trajectory = none) :
    TrajectoryRecorder.record_step s step now =
      (some (PyErr.runtimeError "No active trajectory. Call start() first."),
       s) ∧
    TrajectoryRecorder.complete s r b now2 =
      (some (PyErr.runtimeError "No active trajectory. Call start() first."),
       s) ∧
    (TrajectoryRecorder.record_step s step now).2.current_trajectory = none ∧
    (TrajectoryRecorder.complete s r b now2).2.current_trajectory = none ∧
    (s.steps = [] → (TrajectoryRecorder.record_step s step now).2.steps = []) := by
  have h1 : TrajectoryRecorder.record_step s step now =
      (some (PyErr.runtimeError "No active trajectory. Call start() first."),
       s) := by
    simp [TrajectoryRecorder.record_step, h]
  have h2 : TrajectoryRecorder.complete s r b now2 =
      (some (PyErr.runtimeError "No active trajectory. Call start() first."),
       s) := by
    simp [TrajectoryRecorder.complete, h]
  refine ⟨h1, h2, by rw [h1]; exact h, by rw [h2]; exact h, ?_⟩
  intro hs
  rw [h1]
  exact hs

/-- C10 witness. -/
theorem C10_record_without_start_witness :
    TrajectoryRecorder.record_step TrajectoryRecorder.init stepCalc 0 =
      (some (PyErr.runtimeError "No active trajectory. Call start() first."),
       TrajectoryRecorder.init) :=
  (C10_record_without_start TrajectoryRecorder.init stepCalc 0 JVal.jnull
    true 0 rfl).1

/-- C8: `reset` is idempotent and state-erasing: reset of a fresh recorder
and a double reset change nothing further, `get_trajectory` after a reset
is `none`, and since `run` starts by overwriting the recorder, the next run
after a reset is literally the run of a fresh engine — indeed `run` does
not depend on the prior recorder state at all. -/
theorem C8_reset_idempotent (s s2 : TrajectoryRecorder) (env : Env)
    (cfg : Config) (task : String) :
    TrajectoryRecorder.reset (TrajectoryRecorder.reset s) =
      TrajectoryRecorder.reset s ∧
    TrajectoryRecorder.reset TrajectoryRecorder.init = TrajectoryRecorder.init ∧
    TrajectoryRecorder.get_trajectory (TrajectoryRecorder.reset s) = none ∧
    run env cfg task (TrajectoryRecorder.reset s) =
      run env cfg task TrajectoryRecorder.init ∧
    run env cfg task s = run env cfg task s2 :=
  ⟨rfl, rfl, rfl, rfl, rfl⟩

/-- C4: every exception raised under the step executor's dispatch `try`
block — a capability's `execute` raising, and the defensive tool-not-found
case when the decided action name is absent from the registry at dispatch
time — is caught and folded into the string
`Error executing action <name>: <message>`, which becomes both the step's
`observation` and (stringified) `result`; the loop then continues with the
next iteration instead of propagating the exception. -/
theorem C4_tool_failure_contained :
    (∀ (reg : List (String × Tool)) (d : JVal) (name : String) (inp : JVal)
        (tl : Tool) (msg : String),
      pyGetItem d "action" = Except.ok (JVal.jstr name) →
      pyGetItem d "action_input" = Except.ok inp →
      reg.lookup name = some tl →
      tl.exec inp = Except.error msg →
      execute_action reg d =
        Except.ok ("Error executing action " ++ name ++ ": " ++ msg)) ∧
    (∀ (reg : List (String × Tool)) (d : JVal) (name : String) (inp : JVal),
      pyGetItem d "action" = Except.ok (JVal.jstr name) →
      pyGetItem d "action_input" = Except.ok inp →
      reg.lookup name = none →
      execute_action reg d =
        Except.ok ("Error executing action " ++ name ++ ": " ++
          ("Tool not found: " ++ name))) ∧
    (∀ (env : Env) (i : Nat) (d a inp : JVal) (obs : String),
      decide_action (env.loads (env.response i)) (env.response i)
          (get_available_tools env.reg) = Except.ok d →
      pyGetItem d "action" = Except.ok a →
      pyEqStr a "final_answer" = false →
      execute_action env.reg d = Except.ok obs →
      pyGetItem d "action_input" = Except.ok inp →
      execute_step env i = Except.ok
        ⟨env.thought i, a, inp, obs, JVal.jstr obs⟩) ∧
    (∀ (env : Env) (cfg : Config) (fuel it : Nat) (p : String)
        (rec : TrajectoryRecorder) (step : ReActStep),
      ¬ env.timeAt it - env.t0 > cfg.timeout_seconds →
      execute_step env it = Except.ok step →
      pyEqStr step.action "final_answer" = false →
      (TrajectoryRecorder.record_step rec step (env.recordTime it)).1 = none →
      runLoop env cfg (fuel + 1) it p rec =
        runLoop env cfg fuel (it + 1) step.observation
          (TrajectoryRecorder.record_step rec step (env.recordTime it)).2) := by
  refine ⟨?_, ?_, ?_, ?_⟩
  · intro reg d name inp tl msg h1 h2 h3 h4
    simp only [execute_action, h1, h2, regLookup, List.lookup, h3, h4]
    rfl
  · intro reg d name inp h1 h2 h3
    simp only [execute_action, h1, h2, regLookup, List.lookup, h3]
    rfl
  · intro env i d a inp obs hd ha hnf hea hinp
    simp only [execute_step, hd, ha, hnf, Bool.false_eq_true, if_false, hea,
      hinp]
  · intro env cfg fuel it p rec step htime hok hnf hrec
    exact runLoop_step_continue htime hok hnf hrec

/-- C4 witness: the failing `file` capability's exception is folded into
the error string. -/
theorem C4_tool_failure_contained_witness :
    execute_action regW dFile =
      Except.ok ("Error executing action " ++ "file" ++ ": " ++ "boom") :=
  C4_tool_failure_contained.1 regW dFile "file" (JVal.jobj []) toolBoom "boom"
    rfl rfl rfl rfl

/-- C5: a decided `final_answer` whose `action_input` carries `answer`
produces the step with `observation = "Task completed"` and
`result = action_input["answer"]`; the loop records that terminal step,
completes the trajectory with `success = true` and `final_result` the
answer, and returns the answer to the caller. -/
theorem C5_final_answer_completes (env : Env) (cfg : Config) (fuel it : Nat)
    (p : String) (rec : TrajectoryRecorder) (tr : Trajectory) (d inp ans : JVal)
    (hcur : rec.current_trajectory = some tr)
    (htime : ¬ env.timeAt it - env.t0 > cfg.timeout_seconds)
    (hd : decide_action (env.loads (env.response it)) (env.response it)
        (get_available_tools env.reg) = Except.ok d)
    (ha : pyGetItem d "action" = Except.ok (JVal.jstr "final_answer"))
    (hinp : pyGetItem d "action_input" = Except.ok inp)
    (hans : pyGetItem inp "answer" = Except.ok ans) :
    execute_step env it = Except.ok
      ⟨env.thought it, JVal.jstr "final_answer", inp, "Task completed", ans⟩ ∧
    ∃ s2, runLoop env cfg (fuel + 1) it p rec = (RunOutcome.answer ans, s2) ∧
      s2.steps = rec.steps ++
        [mkTrajStep rec
          ⟨env.thought it, JVal.jstr "final_answer", inp, "Task completed", ans⟩
          (env.recordTime it)] ∧
      ∃ t2, s2.current_trajectory = some t2 ∧ t2.success = true ∧
        t2.final_result = some ans ∧ t2.end_time = some env.completeTime := by
  have hstep : execute_step env it = Except.ok
      ⟨env.thought it, JVal.jstr "final_answer", inp, "Task completed", ans⟩ := by
    simp only [execute_step, hd, ha, hinp, hans]
    rfl
  have hfa : pyEqStr (JVal.jstr "final_answer") "final_answer" = true := rfl
  have hrs := record_step_some_spec
    (s := rec) (t := tr)
    ⟨env.thought it, JVal.jstr "final_answer", inp, "Task completed", ans⟩
    (env.recordTime it) hcur
  obtain ⟨t2, ht2, he2, hs2⟩ := hrs.2.2.2
  have hcs := complete_some_spec (s := (TrajectoryRecorder.record_step rec
      ⟨env.thought it, JVal.jstr "final_answer", inp, "Task completed", ans⟩
      (env.recordTime it)).2) (t := t2) ans true env.completeTime ht2
  have hloop := runLoop_step_final env cfg fuel it p rec
    htime hstep hfa hrs.1 hcs.1
  refine ⟨hstep, _, hloop, ?_, ?_⟩
  · rw [hcs.2.1]
    exact hrs.2.2.1
  · obtain ⟨t3, ht3, hsucc, hfin, hend, _⟩ := hcs.2.2
    exact ⟨t3, ht3, hsucc, hfin, hend⟩

/-- C5 witness: under `envFinal` the first iteration returns `"42"` with a
completed, successful trajectory holding the terminal step. -/
theorem C5_final_answer_completes_witness :
    execute_step envFinal 0 = Except.ok
      ⟨"think", JVal.jstr "final_answer",
       JVal.jobj [("answer", JVal.jstr "42")], "Task completed",
       JVal.jstr "42"⟩ ∧
    ∃ s2, runLoop envFinal cfg2 1 0 "" startedW =
        (RunOutcome.answer (JVal.jstr "42"), s2) ∧
      s2.steps = startedW.steps ++
        [mkTrajStep startedW
          ⟨"think", JVal.jstr "final_answer",
           JVal.jobj [("answer", JVal.jstr "42")], "Task completed",
           JVal.jstr "42"⟩ 0] ∧
      ∃ t2, s2.current_trajectory = some t2 ∧ t2.success = true ∧
        t2.final_result = some (JVal.jstr "42") ∧ t2.end_time = some 0 :=
  C5_final_answer_completes envFinal cfg2 0 0 "" startedW trajW dFinal
    (JVal.jobj [("answer", JVal.jstr "42")]) (JVal.jstr "42")
    rfl (by decide) rfl rfl rfl rfl

/-- C2 (amended): `run` records at most `max_iterations` steps; and when
every entered iteration stays within the timeout and executes a recorded
non-`final_answer` step without an uncaught exception, `run` ends in the
max-iterations error after exactly `max_iterations` recorded steps, leaving
the trajectory incomplete (`success = false`, `end_time = null`).  (The
possible fourth outcome — an uncaught exception propagating from step
execution — is what the counterexample exhibits.) -/
theorem C2_run_termination (env : Env) (cfg : Config) (task : String)
    (rec : TrajectoryRecorder) :
    (run env cfg task rec).2.steps.length ≤ cfg.max_iterations ∧
    ((∀ j, j < cfg.max_iterations →
        ¬ env.timeAt j - env.t0 > cfg.timeout_seconds) →
     (∀ j, j < cfg.max_iterations →
        ∃ step, execute_step env j = Except.ok step ∧
          pyEqStr step.action "final_answer" = false) →
     (run env cfg task rec).1 = RunOutcome.maxIterations ∧
     (run env cfg task rec).2.steps.length = cfg.max_iterations ∧
     ∀ t, (run env cfg task rec).2.current_trajectory = some t →
       t.success = false ∧ t.end_time = none) := by
  constructor
  · have h := runLoop_steps_le env cfg cfg.max_iterations 0 ""
      (TrajectoryRecorder.start rec task env.startT)
    have h0 : (TrajectoryRecorder.start rec task env.startT).steps.length = 0 :=
      rfl
    simp only [run]
    omega
  · intro htime hstep
    have h := runLoop_exhaust env cfg cfg.max_iterations 0 ""
      (TrajectoryRecorder.start rec task env.startT) rfl
      (fun j hj => by rw [Nat.zero_add]; exact htime j hj)
      (fun j hj => by rw [Nat.zero_add]; exact hstep j hj)
    refine ⟨h.1, ?_, ?_⟩
    · have h2 := h.2.1
      have h0 : (TrajectoryRecorder.start rec task env.startT).steps.length =
        0 := rfl
      simp only [run]
      omega
    · intro t ht
      obtain ⟨t2, ht2, he2, hs2⟩ := h.2.2 _ rfl
      have htt : t2 = t := by
        have h3 := ht2.symm.trans ht
        injection h3
      subst htt
      exact ⟨hs2, he2⟩

/-- C2 witness: with a model that always calls the calculator, `run`
exhausts its two iterations with two recorded steps and an incomplete
trajectory. -/
theorem C2_run_termination_witness :
    (run envTool cfg2 "task" TrajectoryRecorder.init).1 =
      RunOutcome.maxIterations ∧
    (run envTool cfg2 "task" TrajectoryRecorder.init).2.steps.length = 2 ∧
    ∀ t, (run envTool cfg2 "task"
        TrajectoryRecorder.init).2.current_trajectory = some t →
      t.success = false ∧ t.end_time = none :=
  (C2_run_termination envTool cfg2 "task" TrajectoryRecorder.init).2
    (by decide) (fun j hj => ⟨stepCalc, rfl, rfl⟩)

/-- C2 counterexample: when the model always answers with a `final_answer`
decision lacking the `answer` key, `run` neither returns a string nor
raises one of the two fatal errors — it propagates the step executor's
uncaught `KeyError`. -/
theorem C2_run_termination_counterexample :
    (run envBadFinal cfg2 "task" TrajectoryRecorder.init).1 =
      RunOutcome.pyError (PyErr.keyError "answer") := rfl

/-- C3: in the recorder state left by any run, `steps[i].step_number`
equals `i + 1` for every index (1-based, gapless, however many
tool-execution errors occurred), the live trajectory mirrors that step
list with `total_steps` equal to its length, and every successful
`record_step` re-establishes `total_steps = len(steps)`. -/
theorem C3_step_numbering (env : Env) (cfg : Config) (task : String)
    (rec : TrajectoryRecorder) :
    (∀ i : Fin (run env cfg task rec).2.steps.length,
      ((run env cfg task rec).2.steps.get i).step_number = i.1 + 1) ∧
    (∀ t, (run env cfg task rec).2.current_trajectory = some t →
      t.steps = (run env cfg task rec).2.steps ∧
      t.total_steps = t.steps.length) ∧
    (∀ (s : TrajectoryRecorder) (step : ReActStep) (now : ℤ) (t : Trajectory),
      (TrajectoryRecorder.record_step s step now).2.current_trajectory =
        some t →
      s.current_trajectory.isSome = true →
      t.total_steps = t.steps.length) := by
  have hinv : RecInv (run env cfg task rec).2 := by
    simp only [run]
    exact runLoop_preserves env cfg RecInv
      (fun s step now hs _ => RecInv_record step now hs)
      (fun s r b now hs => RecInv_complete r b now hs)
      cfg.max_iterations 0 "" _ (RecInv_start rec task env.startT)
  refine ⟨hinv.2, ?_, ?_⟩
  · intro t ht
    have h2 := hinv.1 t ht
    refine ⟨h2.1, ?_⟩
    rw [h2.1]
    exact h2.2
  · intro s step now t ht hsome
    obtain ⟨t0, ht0⟩ := Option.isSome_iff_exists.mp hsome
    simp only [TrajectoryRecorder.record_step, ht0] at ht
    injection ht with ht1
    rw [← ht1]

/-- C3 witness: the single recorded step of a completed one-step run is
numbered 1. -/
theorem C3_step_numbering_witness :
    ((run envFinal cfg2 "task" TrajectoryRecorder.init).2.steps.get
      ⟨0, by decide⟩).step_number = 0 + 1 :=
  (C3_step_numbering envFinal cfg2 "task" TrajectoryRecorder.init).1
    ⟨0, by decide⟩

/-- C7: every step recorded during a run carries an `action` that is a
string naming a tool registered at decision time, or the `final_answer`
sentinel — the parser rejects all other names and its fallback decision
uses `final_answer`. -/
theorem C7_recorded_actions_valid (env : Env) (cfg : Config) (task : String)
    (rec : TrajectoryRecorder) :
    ∀ i : Fin (run env cfg task rec).2.steps.length,
      ∃ n, ((run env cfg task rec).2.steps.get i).action = JVal.jstr n ∧
        (n ∈ get_available_tools env.reg ∨ n = "final_answer") := by
  have h : (fun s : TrajectoryRecorder => ∀ i : Fin s.steps.length,
      ∃ n, (s.steps.get i).action = JVal.jstr n ∧
        (n ∈ get_available_tools env.reg ∨ n = "final_answer"))
      (run env cfg task rec).2 := by
    simp only [run]
    refine runLoop_preserves env cfg
      (fun s : TrajectoryRecorder => ∀ i : Fin s.steps.length,
        ∃ n, (s.steps.get i).action = JVal.jstr n ∧
          (n ∈ get_available_tools env.reg ∨ n = "final_answer"))
      ?_ ?_ cfg.max_iterations 0 "" _ ?_
    · intro s step now hs hex
      obtain ⟨i, hi⟩ := hex
      cases hc : s.current_trajectory with
      | none =>
        have hsteps : (TrajectoryRecorder.record_step s step now).2.steps =
            s.steps := by
          simp [TrajectoryRecorder.record_step, hc]
        exact forall_fin_steps_congr
          (fun st => ∃ n, st.action = JVal.jstr n ∧
            (n ∈ get_available_tools env.reg ∨ n = "final_answer"))
          hsteps.symm hs
      | some t =>
        have hsteps : (TrajectoryRecorder.record_step s step now).2.steps =
            s.steps ++ [mkTrajStep s step now] :=
          (record_step_some_spec step now hc).2.2.1
        refine forall_fin_steps_congr
          (fun st => ∃ n, st.action = JVal.jstr n ∧
            (n ∈ get_available_tools env.reg ∨ n = "final_answer"))
          hsteps.symm ?_
        refine forall_fin_append
          (fun st => ∃ n, st.action = JVal.jstr n ∧
            (n ∈ get_available_tools env.reg ∨ n = "final_answer"))
          hs ?_
        have hv := execute_step_action_valid hi
        simpa [mkTrajStep] using hv
    · intro s r b now hs
      have hsteps : (TrajectoryRecorder.complete s r b now).2.steps =
          s.steps := by
        cases hc : s.current_trajectory <;>
          simp [TrajectoryRecorder.complete, hc]
      exact forall_fin_steps_congr
        (fun st => ∃ n, st.action = JVal.jstr n ∧
          (n ∈ get_available_tools env.reg ∨ n = "final_answer"))
        hsteps.symm hs
    · rintro ⟨i, hi⟩
      simp [TrajectoryRecorder.start] at hi
  exact h

/-- C7 witness: the single step of a completed one-step run carries the
`final_answer` action. -/
theorem C7_recorded_actions_valid_witness :
    ∃ n, ((run envFinal cfg2 "task" TrajectoryRecorder.init).2.steps.get
        ⟨0, by decide⟩).action = JVal.jstr n ∧
      (n ∈ get_available_tools envFinal.reg ∨ n = "final_answer") :=
  C7_recorded_actions_valid envFinal cfg2 "task" TrajectoryRecorder.init
    ⟨0, by decide⟩

end AIAgent
